import Mathlib

/-!
Shallow embedding of the minimal read-only SQLite 3 reader of this
repository (the varint codec, record decoder, page store, B-tree walker,
schema resolver and cookie extractor).

Byte buffers are modelled as `List Nat` (every element a byte value);
Go's `int64` values are modelled as `Int`, with the two's-complement
reinterpretation of an accumulated unsigned bit pattern made explicit by
`int64OfNat`.  Go strings produced by `string(bytes)` are byte-for-byte
copies, and `==` / `strings.Contains` on them are byte-wise, so text
column values are kept as raw byte lists.  The unbounded recursion of
`walkTableBTree` is modelled with an explicit fuel parameter: a result of
`none` means the given recursion depth was exhausted before the walk
completed, while `some rows` is the list of rows passed to the visitor
callback, in call order.  Go run-time panics (the slice expression of
`page` when the machine-int offset arithmetic wraps, and the unguarded
4-byte right-most-child read of `walkTableBTree` on a too-short interior
page) are modelled explicitly as `Except.error ()` results.
-/

/-- Two's-complement reinterpretation of a 64-bit unsigned pattern as a
Go `int64`. -/
def int64OfNat (n : Nat) : Int :=
  if n % 2 ^ 64 < 2 ^ 63 then ((n % 2 ^ 64 : Nat) : Int)
  else ((n % 2 ^ 64 : Nat) : Int) - 2 ^ 64

/-- `binary.BigEndian.Uint16`, totalized with a default byte of 0. -/
def readU16 (l : List Nat) (i : Nat) : Nat :=
  (l.getD i 0) <<< 8 ||| l.getD (i + 1) 0

/-- `binary.BigEndian.Uint32`, totalized with a default byte of 0. -/
def readU32 (l : List Nat) (i : Nat) : Nat :=
  ((((l.getD i 0) <<< 8 ||| l.getD (i + 1) 0) <<< 8 ||| l.getD (i + 2) 0) <<< 8)
    ||| l.getD (i + 3) 0

/-- The bytes of the 16-byte magic string constant `sqliteMagic`. -/
def magicBytes : List Nat :=
  [83, 81, 76, 105, 116, 101, 32, 102, 111, 114, 109, 97, 116, 32, 51, 0]

/-- The bytes of the Go string literal used to select schema rows. -/
def tableBytes : List Nat := [116, 97, 98, 108, 101]

/-- The bytes of the Go string literal naming the cookie table. -/
def mozCookiesBytes : List Nat :=
  [109, 111, 122, 95, 99, 111, 111, 107, 105, 101, 115]

/-- The bytes of the Go string literal for the target domain. -/
def claudeBytes : List Nat := [99, 108, 97, 117, 100, 101, 46, 97, 105]

/-- The loop of `readVarint`: `i` is the byte index within the varint,
`v` the accumulated unsigned bit pattern of the Go `int64` accumulator,
and the first `Nat` argument is the remaining iteration budget `9 - i`,
so that the Go loop guard `i < 9` is exactly "budget positive" at every
call site (the loop starts at `i = 0` with budget 9 and both move in
lock step). -/
def rvLoop (data : List Nat) (pos : Nat) : Nat → Nat → Nat → Nat × Nat
  | 0, _, _ => (0, 0)
  | k + 1, i, v =>
    if pos + i < data.length then
      let b := data.getD (pos + i) 0
      if i = 8 then ((v <<< 8) ||| b, 9)
      else if b &&& 128 = 0 then ((v <<< 7) ||| (b &&& 127), i + 1)
      else rvLoop data pos k (i + 1) ((v <<< 7) ||| (b &&& 127))
    else (0, 0)

/-- `readVarint data pos` returns the decoded value and the number of
bytes consumed; consumed = 0 signals failure. -/
def readVarint (data : List Nat) (pos : Nat) : Int × Nat :=
  let r := rvLoop data pos 9 0 0
  (int64OfNat r.1, r.2)

/-- One column value of a SQLite record (the `sqliteVal` struct);
`text` holds the raw bytes of the Go string. -/
structure sqliteVal where
  text : List Nat
  intV : Int
  isInt : Bool
  isNull : Bool
deriving DecidableEq

/-- The zero value of the `sqliteVal` struct. -/
def zeroVal : sqliteVal := ⟨[], 0, false, false⟩

/-- Big-endian accumulation `iv = (iv << 8) | b` over `size` bytes
starting at `pos`. -/
def beNat (payload : List Nat) : Nat → Nat → Nat → Nat
  | _, acc, 0 => acc
  | pos, acc, size + 1 =>
      beNat payload (pos + 1) ((acc <<< 8) ||| payload.getD pos 0) size

/-- The sign extension `(iv << shift) >> shift` with
`shift = 64 - size*8` applied to an accumulated big-endian pattern. -/
def sext (p : Nat) (size : Nat) : Int :=
  let bits := size * 8
  let q := p % 2 ^ bits
  if q < 2 ^ (bits - 1) then (q : Int) else (q : Int) - 2 ^ bits

/-- One arm of the serial-type switch of `parseRecord`: decodes the
column for serial type `t` at data cursor `dataPos`, returning the value
and the new cursor, or `none` when the declared width would read past
the end of the payload (the `return result` truncation paths). -/
def decodeOne (payload : List Nat) (t : Int) (dataPos : Nat) :
    Option (sqliteVal × Nat) :=
  if t = 0 then some ({ zeroVal with isNull := true }, dataPos)
  else if 1 ≤ t ∧ t ≤ 6 then
    let size := [0, 1, 2, 3, 4, 6, 8].getD t.toNat 0
    if payload.length < dataPos + size then none
    else
      some ({ zeroVal with
                intV := sext (beNat payload dataPos 0 size) size,
                isInt := true }, dataPos + size)
  else if t = 7 then
    if payload.length < dataPos + 8 then none else some (zeroVal, dataPos + 8)
  else if t = 8 then some ({ zeroVal with isInt := true }, dataPos)
  else if t = 9 then some ({ zeroVal with isInt := true, intV := 1 }, dataPos)
  else if 12 ≤ t ∧ t % 2 = 0 then
    let size := ((t - 12) / 2).toNat
    if payload.length < dataPos + size then none
    else some (zeroVal, dataPos + size)
  else if 13 ≤ t ∧ t % 2 = 1 then
    let size := ((t - 13) / 2).toNat
    if payload.length < dataPos + size then none
    else
      some ({ zeroVal with text := (payload.drop dataPos).take size },
            dataPos + size)
  else some (zeroVal, dataPos)

/-- The column loop of `parseRecord` over the decoded serial types.  The
result slice is pre-allocated at full length in the Go code, so the
truncation paths return zero values for the current and all later
columns. -/
def decodeCols (payload : List Nat) : List Int → Nat → List sqliteVal
  | [], _ => []
  | t :: ts, dataPos =>
    match decodeOne payload t dataPos with
    | none => List.replicate (ts.length + 1) zeroVal
    | some (v, dataPos') => v :: decodeCols payload ts dataPos'

/-- The serial-type loop of `parseRecord`: decode varints from `pos` up
to the header end `H`, stopping early on a failed varint.  The first
`Nat` argument is an iteration budget: every iteration advances `pos` by
at least 1, so with a starting budget of `H` the budget can only run out
once `pos < H` has already become false, and the function agrees with
the unbounded Go loop. -/
def readTypes (payload : List Nat) : Nat → Nat → Nat → List Int
  | 0, _, _ => []
  | fuel + 1, pos, H =>
    if pos < H then
      let r := readVarint payload pos
      if r.2 = 0 then [] else r.1 :: readTypes payload fuel (pos + r.2) H
    else []

/-- The header phase of `parseRecord`: the empty-payload check, the
header-length varint and its validity checks, and the serial-type list.
Returns the serial types together with the header length (the data
cursor start), or `none` on the `return nil` paths. -/
def recordTypes (payload : List Nat) : Option (List Int × Nat) :=
  if payload.length = 0 then none
  else
    let r := readVarint payload 0
    if r.2 = 0 ∨ r.1 < (r.2 : Int) ∨ (payload.length : Int) < r.1 then none
    else some (readTypes payload r.1.toNat r.2 r.1.toNat, r.1.toNat)

/-- `parseRecord payload`: `none` models the Go `nil` result, `some cols`
a non-nil slice of column values. -/
def parseRecord (payload : List Nat) : Option (List sqliteVal) :=
  match recordTypes payload with
  | none => none
  | some (ts, H) => some (decodeCols payload ts H)

/-- The `sqliteDB` struct: the raw file image and the derived page size. -/
structure sqliteDB where
  data : List Nat
  pageSize : Nat
deriving DecidableEq

/-- `newSQLiteDB`: header length and magic check, then the big-endian
page size at offset 16 with the sentinel 1 meaning 65536. -/
def newSQLiteDB (data : List Nat) : Option sqliteDB :=
  if data.length < 100 ∨ data.take 16 ≠ magicBytes then none
  else
    let ps := readU16 data 16
    some ⟨data, if ps = 1 then 65536 else ps⟩

/-- Two's-complement wrap of an integer into the 64-bit machine-int
range, modelling the overflow of Go `int` arithmetic. -/
def wrap64 (x : Int) : Int := (x + 2 ^ 63) % 2 ^ 64 - 2 ^ 63

/-- `db.page n`: the 1-based page slice.  The offset arithmetic is Go
machine-int arithmetic, so both the product `(n-1) * pageSize` and the
sum `off + pageSize` wrap at 64 bits.  `Except.ok none` models the `nil`
return of the bound check; `Except.error ()` models the run-time panic
of the slice expression when the wrapped upper bound falls below `off`. -/
def sqliteDB.page (db : sqliteDB) (n : Int) :
    Except Unit (Option (List Nat)) :=
  let off := wrap64 (wrap64 (n - 1) * (db.pageSize : Int))
  let off2 := wrap64 (off + (db.pageSize : Int))
  if off < 0 ∨ (db.data.length : Int) < off2 then Except.ok none
  else if off2 < off then Except.error ()
  else Except.ok (some ((db.data.drop off.toNat).take (off2.toNat - off.toNat)))

/-- `db.maxInlinePayload`: the inline payload bound `pageSize - 35`,
as the Go `int` (which may be negative for tiny page sizes). -/
def sqliteDB.maxInlinePayload (db : sqliteDB) : Int :=
  (db.pageSize : Int) - 35

/-- `db.leafCellPayload page cellOff`: decode the payload-size and rowid
varints, clamp the inline length to `maxInlinePayload` and to the page
end, and return the inline payload slice; `none` models the `nil`
returns. -/
def sqliteDB.leafCellPayload (db : sqliteDB) (page : List Nat)
    (cellOff : Nat) : Option (List Nat) :=
  let r1 := readVarint page cellOff
  if r1.2 = 0 then none
  else
    let r2 := readVarint page (cellOff + r1.2)
    if r2.2 = 0 then none
    else
      let pos := cellOff + r1.2 + r2.2
      let inl := if db.maxInlinePayload < r1.1 then db.maxInlinePayload
                 else r1.1
      let end0 : Int := (pos : Int) + inl
      let end1 : Int := if (page.length : Int) < end0 then
                          (page.length : Int) else end0
      if end1 ≤ (pos : Int) then none
      else some ((page.drop pos).take (end1.toNat - pos))

/-- The leaf-page cell loop of `walkTableBTree`: walk `count` cell
pointers starting at index `i`, collecting the rows passed to the
callback.  A pointer-slot past the page end breaks the loop; a cell
offset at or past the page end, a nil payload, and a nil record are
skipped. -/
def leafCells (db : sqliteDB) (page : List Nat) (ptrStart : Nat) :
    Nat → Nat → List (List sqliteVal)
  | _, 0 => []
  | i, c + 1 =>
    let pOff := ptrStart + i * 2
    if page.length < pOff + 2 then []
    else
      let cellOff := readU16 page pOff
      if page.length ≤ cellOff then leafCells db page ptrStart (i + 1) c
      else
        match db.leafCellPayload page cellOff with
        | none => leafCells db page ptrStart (i + 1) c
        | some payload =>
          match parseRecord payload with
          | none => leafCells db page ptrStart (i + 1) c
          | some cols => cols :: leafCells db page ptrStart (i + 1) c

/-- The interior-page cell loop of `walkTableBTree`: the child page
number of each cell, in cell-pointer-array order.  A pointer-slot past
the page end breaks the loop; a cell whose 4 child-pointer bytes would
cross the page end is skipped. -/
def cellChildPages (page : List Nat) (ptrStart : Nat) :
    Nat → Nat → List Nat
  | _, 0 => []
  | i, c + 1 =>
    let pOff := ptrStart + i * 2
    if page.length < pOff + 2 then []
    else
      let cellOff := readU16 page pOff
      if page.length < cellOff + 4 then cellChildPages page ptrStart (i + 1) c
      else readU32 page cellOff :: cellChildPages page ptrStart (i + 1) c

/-- The body of the interior-page cell loop of `walkTableBTree`,
parameterized by the recursive walk `w` applied to each positive child
page number: fuel exhaustion and panics propagate, a zero child page
number is skipped, and the rows of a walked child are appended. -/
def interiorStep (w : Int → Option (Except Unit (List (List sqliteVal)))) :
    Option (Except Unit (List (List sqliteVal))) → Nat →
      Option (Except Unit (List (List sqliteVal)))
  | none, _ => none
  | some (Except.error e), _ => some (Except.error e)
  | some (Except.ok a), c =>
    if 0 < c then
      match w (c : Int) with
      | none => none
      | some (Except.error e) => some (Except.error e)
      | some (Except.ok r) => some (Except.ok (a ++ r))
    else some (Except.ok a)

/-- `db.walkTableBTree fuel pageNum`: the rows visited by the recursive
walk, in callback order.  `none` means the fuel (the recursion depth
bound of the model) was exhausted; `some (Except.error ())` models a
run-time panic — either a panicking page slice, or the unguarded 4-byte
big-endian read of the right-most child pointer on an interior page
shorter than `hdrOff + 12`, which panics in Go since only
`hdrOff + 8 ≤ length` has been checked; `some (Except.ok rows)` is a
completed walk.  An unreadable page, a too-short page, and an unhandled
page type yield no rows without error, as in the Go code, and a panic
in a recursive call propagates outward. -/
def sqliteDB.walkTableBTree (db : sqliteDB) :
    Nat → Int → Option (Except Unit (List (List sqliteVal)))
  | 0, _ => none
  | fuel + 1, pageNum =>
    match db.page pageNum with
    | Except.error e => some (Except.error e)
    | Except.ok none => some (Except.ok [])
    | Except.ok (some page) =>
      let hdrOff := if pageNum = 1 then 100 else 0
      if page.length < hdrOff + 8 then some (Except.ok [])
      else
        let pageType := page.getD hdrOff 0
        let cellCount := readU16 page (hdrOff + 3)
        if pageType = 13 then
          some (Except.ok (leafCells db page (hdrOff + 8) 0 cellCount))
        else if pageType = 5 then
          if page.length < hdrOff + 12 then some (Except.error ())
          else
            let rightChild := readU32 page (hdrOff + 8)
            (cellChildPages page (hdrOff + 12) 0 cellCount).foldl
              (interiorStep (db.walkTableBTree fuel))
              (if 0 < rightChild then db.walkTableBTree fuel (rightChild : Int)
               else some (Except.ok []))
        else some (Except.ok [])

/-- The schema-row predicate of `findTableRootPage`. -/
def schemaMatch (tableName : List Nat) (cols : List sqliteVal) : Bool :=
  decide (4 ≤ cols.length) && (cols.getD 0 zeroVal).text == tableBytes
    && (cols.getD 1 zeroVal).text == tableName
    && (cols.getD 3 zeroVal).isInt

/-- The body of the `findTableRootPage` callback: overwrite the root
with column 3 of a matching row. -/
def schemaStep (tableName : List Nat) (root : Int) (cols : List sqliteVal) :
    Int :=
  if schemaMatch tableName cols then (cols.getD 3 zeroVal).intV else root

/-- `db.findTableRootPage fuel tableName`: walk page 1 and fold the
schema callback over its rows, starting from root 0. -/
def sqliteDB.findTableRootPage (db : sqliteDB) (fuel : Nat)
    (tableName : List Nat) : Option (Except Unit Int) :=
  (db.walkTableBTree fuel 1).map
    (fun r => r.map (fun rows => rows.foldl (schemaStep tableName) 0))

/-- Go map assignment `m[k] = v`, modelled on an association list with
unique keys: drop any previous binding of `k` and append the new one. -/
def mapInsert (m : List (List Nat × List Nat)) (k v : List Nat) :
    List (List Nat × List Nat) :=
  (m.filter (fun p => !(p.1 == k))) ++ [(k, v)]

/-- Go map lookup `m[k]`. -/
def mapLookup (m : List (List Nat × List Nat)) (k : List Nat) :
    Option (List Nat) :=
  match m.find? (fun p => p.1 == k) with
  | some p => some p.2
  | none => none

/-- The body of the `parseCookiesFromSQLite` callback: the column-count,
host-substring and non-empty name/value filters, then the map insert. -/
def cookieStep (m : List (List Nat × List Nat)) (cols : List sqliteVal) :
    List (List Nat × List Nat) :=
  if cols.length < 6 then m
  else
    let host := (cols.getD 5 zeroVal).text
    if claudeBytes <:+: host then
      let name := (cols.getD 3 zeroVal).text
      let value := (cols.getD 4 zeroVal).text
      if name ≠ [] ∧ value ≠ [] then mapInsert m name value else m
    else m

/-- The observable outcome of `parseCookiesFromSQLite`: `failed` models
the two Go error returns (bad file format, unresolved table),
`panicked` a run-time panic propagated from the walker, `ok` the cookie
map. -/
inductive CookieResult where
  | failed
  | panicked
  | ok (m : List (List Nat × List Nat))
deriving DecidableEq

/-- `parseCookiesFromSQLite fuel data`: the Go orchestration.  The outer
`none` means the walk fuel of the model ran out. -/
def parseCookiesFromSQLite (fuel : Nat) (data : List Nat) :
    Option CookieResult :=
  match newSQLiteDB data with
  | none => some CookieResult.failed
  | some db =>
    match db.findTableRootPage fuel mozCookiesBytes with
    | none => none
    | some (Except.error _) => some CookieResult.panicked
    | some (Except.ok rootPage) =>
      if rootPage = 0 then some CookieResult.failed
      else
        match db.walkTableBTree fuel rootPage with
        | none => none
        | some (Except.error _) => some CookieResult.panicked
        | some (Except.ok rows) =>
          some (CookieResult.ok (rows.foldl cookieStep []))

/-- A minimal synthetic one-page database image (page size 256): page 1
is a table leaf carrying one schema row
`("table", "moz_cookies", "moz_cookies", 2, NULL)` in a cell at offset
110. -/
def schemaData : List Nat :=
  magicBytes ++ [1, 0] ++ List.replicate 82 0 ++
  [13, 0, 0, 0, 1, 0, 0, 0, 0, 110] ++
  [34, 1, 6, 23, 35, 35, 1, 0] ++ tableBytes ++ mozCookiesBytes ++
  mozCookiesBytes ++ [2] ++ List.replicate 110 0

/-- The database value `newSQLiteDB` produces for `schemaData`. -/
def schemaDB : sqliteDB := ⟨schemaData, 256⟩

/-- A minimal synthetic one-page database image (page size 256) whose
schema page is a table leaf with zero cells: no table can be resolved
in it. -/
def emptySchemaData : List Nat :=
  magicBytes ++ [1, 0] ++ List.replicate 82 0 ++
  [13, 0, 0, 0, 0] ++ List.replicate 151 0

/-- The database value `newSQLiteDB` produces for `emptySchemaData`. -/
def emptySchemaDB : sqliteDB := ⟨emptySchemaData, 256⟩

/-- A corrupted database image (page size 32, 100 bytes, valid magic):
page 2 and page 3 are table-interior pages with zero cells whose
right-most child pointers reference each other, forming a cycle. -/
def cyclicData : List Nat :=
  magicBytes ++ [0, 32] ++ List.replicate 14 0 ++
  ([5, 0, 0, 0, 0, 0, 0, 0, 0, 0, 0, 3] ++ List.replicate 20 0) ++
  ([5, 0, 0, 0, 0, 0, 0, 0, 0, 0, 0, 2] ++ List.replicate 20 0) ++
  List.replicate 4 0

/-- The database value `newSQLiteDB` produces for `cyclicData`. -/
def cyclicDB : sqliteDB := ⟨cyclicData, 32⟩

/-- A 108-byte database image (page size 108, valid magic) whose page 1
is a table-interior page: the page is long enough to pass the
`hdrOff + 8` header check but too short to hold the 4-byte right-most
child pointer at offset 108, so the Go walker panics on it. -/
def panicData : List Nat :=
  magicBytes ++ [0, 108] ++ List.replicate 82 0 ++ [5, 0, 0, 0, 0, 0, 0, 0]

/-- The database value `newSQLiteDB` produces for `panicData`. -/
def panicDB : sqliteDB := ⟨panicData, 108⟩

/-- The value described by the varint specification for the first bytes
of an encoding: 7 low bits per byte, earlier bytes more significant.
`accumBytes data pos v i n` folds `n` bytes starting at index `pos + i`
onto the accumulator `v`. -/
def accumBytes (data : List Nat) (pos : Nat) : Nat → Nat → Nat → Nat
  | v, _, 0 => v
  | v, i, n + 1 =>
      accumBytes data pos ((v <<< 7) ||| (data.getD (pos + i) 0 &&& 127)) (i + 1) n

/-- Sequencing helper used to state the traversal-order claim: walk the
given page numbers in order with the same fuel and concatenate the
visited rows, propagating fuel exhaustion and panics. -/
def walkSeq (db : sqliteDB) (fuel : Nat) :
    List Int → Option (Except Unit (List (List sqliteVal)))
  | [] => some (Except.ok [])
  | c :: cs =>
    match db.walkTableBTree fuel c with
    | none => none
    | some (Except.error e) => some (Except.error e)
    | some (Except.ok r) =>
      match walkSeq db fuel cs with
      | none => none
      | some (Except.error e) => some (Except.error e)
      | some (Except.ok rs) => some (Except.ok (r ++ rs))

set_option maxRecDepth 100000

/-- C9 theorem: `newSQLiteDB` fails exactly on a buffer shorter than the
100-byte header or one not beginning with the 16-byte magic string, and
on success the page size is the big-endian 16-bit value at offset 16,
with the value 1 meaning 65536. -/
theorem newSQLiteDB_spec (data : List Nat) :
    (newSQLiteDB data = none ↔
      data.length < 100 ∨ data.take 16 ≠ magicBytes) ∧
    (∀ db, newSQLiteDB data = some db →
      db.data = data ∧
      db.pageSize = if readU16 data 16 = 1 then 65536 else readU16 data 16) := by
  unfold newSQLiteDB
  constructor
  · split
    · simp [*]
    · simp [*]
  · intro db h
    split at h
    · exact absurd h (by simp)
    · injection h with h
      subst h
      exact ⟨rfl, rfl⟩

/-- C9 witness: a valid 256-byte image yields page size 256, and the
theorem applies to it. -/
theorem newSQLiteDB_spec_witness :
    schemaDB.data = schemaData ∧
    schemaDB.pageSize =
      if readU16 schemaData 16 = 1 then 65536 else readU16 schemaData 16 :=
  (newSQLiteDB_spec schemaData).2 schemaDB rfl

/-- Helper: `wrap64` lands in the 64-bit machine-int range. -/
lemma wrap64_bounds (x : Int) : -2 ^ 63 ≤ wrap64 x ∧ wrap64 x < 2 ^ 63 := by
  unfold wrap64
  omega

/-- Helper: when the wrapped sum of two non-negative machine ints did
not fall below the first summand, no wrap occurred. -/
lemma wrap64_add_eq (a b : Int) (ha : 0 ≤ a) (haw : a < 2 ^ 63)
    (hb0 : 0 ≤ b) (hb : b < 2 ^ 63) (h : ¬ wrap64 (a + b) < a) :
    wrap64 (a + b) = a + b := by
  unfold wrap64 at *
  omega

/-- C8 counterexample: the claim computes the offset with unbounded
integers, but the Go code computes `off := (n - 1) * db.pageSize` in a
wrapping machine int.  On the 256-byte schema image, page number
`2^56 + 1` has mathematical offset `2^64`, which exceeds the buffer
length, so the claim demands `none`; the program's wrapped offset is 0
and it returns page 1's bytes (an aliased page). -/
theorem page_machine_wrap_cex :
    schemaDB.page (2 ^ 56 + 1) = schemaDB.page 1 ∧
    schemaDB.page 1 = Except.ok (some (schemaData.take 256)) ∧
    ((2 ^ 56 + 1 : Int) - 1) * (schemaDB.pageSize : Int) +
        (schemaDB.pageSize : Int) > (schemaDB.data.length : Int) :=
  ⟨rfl, rfl, by decide⟩

/-- C8 theorem (amended): `page n` computes the offset with 64-bit
machine-int arithmetic, `off = wrap64 (wrap64 (n-1) * page_size)`.  It
returns `nil` exactly when `off < 0` or the wrapped sum
`wrap64 (off + page_size)` exceeds the buffer length; when the bound
check passes but the wrapped sum fell below `off`, the slice expression
panics; otherwise it returns the `page_size`-byte slice starting at
`off`. -/
theorem page_bounds_machine (db : sqliteDB) (n : Int)
    (hpsz : (db.pageSize : Int) < 2 ^ 63) :
    (db.page n = Except.ok none ↔
      wrap64 (wrap64 (n - 1) * (db.pageSize : Int)) < 0 ∨
      (db.data.length : Int) <
        wrap64 (wrap64 (wrap64 (n - 1) * (db.pageSize : Int)) +
          (db.pageSize : Int))) ∧
    (db.page n = Except.error () ↔
      ¬ (wrap64 (wrap64 (n - 1) * (db.pageSize : Int)) < 0 ∨
        (db.data.length : Int) <
          wrap64 (wrap64 (wrap64 (n - 1) * (db.pageSize : Int)) +
            (db.pageSize : Int))) ∧
      wrap64 (wrap64 (wrap64 (n - 1) * (db.pageSize : Int)) +
          (db.pageSize : Int)) <
        wrap64 (wrap64 (n - 1) * (db.pageSize : Int))) ∧
    (∀ s, db.page n = Except.ok (some s) →
      s = (db.data.drop
            (wrap64 (wrap64 (n - 1) * (db.pageSize : Int))).toNat).take
          db.pageSize ∧
      s.length = db.pageSize) := by
  simp only [sqliteDB.page]
  refine ⟨?_, ?_, ?_⟩
  · split
    · simp [*]
    · split
      · simp [*]
      · simp [*]
  · split
    · simp [*]
    · split
      · simp [*]
      · simp [*]
  · intro s h
    split at h
    · exact absurd h (by simp)
    · split at h
      · exact absurd h (by simp)
      · rename_i hcond hwrap
        push_neg at hcond
        injection h with h
        injection h with h
        obtain ⟨h1, h2⟩ := hcond
        subst h
        obtain ⟨hlo, hhi⟩ :=
          wrap64_bounds (wrap64 (n - 1) * (db.pageSize : Int))
        have hoh : wrap64 (wrap64 (wrap64 (n - 1) * (db.pageSize : Int)) +
            (db.pageSize : Int)) =
            wrap64 (wrap64 (n - 1) * (db.pageSize : Int)) +
            (db.pageSize : Int) :=
          wrap64_add_eq _ _ (by omega) hhi (by positivity) hpsz hwrap
        rw [hoh] at h2
        constructor
        · rw [hoh]
          have heq : (wrap64 (wrap64 (n - 1) * (db.pageSize : Int)) +
              (db.pageSize : Int)).toNat -
              (wrap64 (wrap64 (n - 1) * (db.pageSize : Int))).toNat =
              db.pageSize := by omega
          rw [heq]
        · rw [List.length_take, List.length_drop, hoh]
          omega

/-- C8 witness: page 1 of the synthetic schema image is its full
256-byte buffer, and the theorem applies to it. -/
theorem page_bounds_machine_witness :
    schemaData.take 256 =
      (schemaDB.data.drop
        (wrap64 (wrap64 ((1 : Int) - 1) * (schemaDB.pageSize : Int))).toNat).take
      schemaDB.pageSize ∧
    (schemaData.take 256).length = schemaDB.pageSize :=
  (page_bounds_machine schemaDB 1 (by decide)).2.2 (schemaData.take 256) rfl

/-- Helper for the record-header rejection: when the decoded header
length is strictly below its own encoded width, the header phase
rejects the payload. -/
lemma recordTypes_eq_none_of_short_header (payload : List Nat)
    (h : (readVarint payload 0).1 < ((readVarint payload 0).2 : Int)) :
    recordTypes payload = none := by
  simp only [recordTypes]
  split
  · rfl
  · split
    · rfl
    · rename_i hc
      exact absurd (Or.inr (Or.inl h)) hc

/-- C10 theorem: `parseRecord` returns no columns on an empty payload,
and on any payload whose leading header-length varint decodes to a value
strictly smaller than that varint's own byte width. -/
theorem parseRecord_header_reject (payload : List Nat) :
    (payload.length = 0 → parseRecord payload = none) ∧
    ((readVarint payload 0).1 < ((readVarint payload 0).2 : Int) →
      parseRecord payload = none) := by
  constructor
  · intro h
    have hrt : recordTypes payload = none := by
      unfold recordTypes
      rw [if_pos h]
    simp [parseRecord, hrt]
  · intro h
    simp [parseRecord, recordTypes_eq_none_of_short_header payload h]

/-- C10 witness: the two-byte payload `[128, 1]` encodes header length 1
in 2 bytes, and is rejected. -/
theorem parseRecord_header_reject_witness : parseRecord [128, 1] = none :=
  (parseRecord_header_reject [128, 1]).2 (by decide)

/-- C1 counterexample: on payload `[3, 1, 1]` the declared serial types
are `[1, 1]` (two one-byte integers) and the first column already reads
past the end of the payload, yet `parseRecord` returns a row of length
2 — the same length as the serial-type list, with zero-value entries for
the undecoded columns — not a strictly shorter row. -/
theorem parseRecord_truncated_row_not_shorter :
    parseRecord [3, 1, 1] = some [zeroVal, zeroVal] ∧
    recordTypes [3, 1, 1] = some ([1, 1], 3) := ⟨rfl, rfl⟩

/-- Helper: the column loop always yields one entry per serial type. -/
lemma decodeCols_length (payload : List Nat) :
    ∀ (ts : List Int) (dataPos : Nat),
      (decodeCols payload ts dataPos).length = ts.length := by
  intro ts
  induction ts with
  | nil => intro _; rfl
  | cons t ts ih =>
    intro dataPos
    unfold decodeCols
    cases h : decodeOne payload t dataPos with
    | none => simp
    | some p => cases p with | mk v d => simp [ih]

/-- C1 theorem (amended): whenever the record header is accepted,
`parseRecord` returns a row with exactly one entry per declared serial
type (never failing), and whenever a serial type's declared data width
would read past the end of the payload, decoding stops at that column
and that column and every later one are returned as zero values. -/
theorem parseRecord_truncation_zero_fills :
    (∀ (payload : List Nat) (ts : List Int) (H : Nat),
      recordTypes payload = some (ts, H) →
      ∃ cols, parseRecord payload = some cols ∧ cols.length = ts.length) ∧
    (∀ (payload : List Nat) (t : Int) (ts : List Int) (dataPos : Nat),
      decodeOne payload t dataPos = none →
      decodeCols payload (t :: ts) dataPos =
        List.replicate (ts.length + 1) zeroVal) := by
  constructor
  · intro payload ts H h
    exact ⟨decodeCols payload ts H, by simp [parseRecord, h],
           decodeCols_length payload ts H⟩
  · intro payload t ts dataPos h
    unfold decodeCols
    rw [h]

/-- C1 witness: on the counterexample payload the first declared column
(serial type 1 at data cursor 3) reads past the end, and the column loop
returns two zero values. -/
theorem parseRecord_truncation_zero_fills_witness :
    decodeCols [3, 1, 1] [(1 : Int), 1] 3 = List.replicate 2 zeroVal :=
  parseRecord_truncation_zero_fills.2 [3, 1, 1] 1 [1] 3 (by decide)

/-- Helper: one unfolding of the walk on page 2 of the cyclic image
steps to page 3 with one unit of fuel spent. -/
lemma cyclic_step_two (n : Nat) :
    cyclicDB.walkTableBTree (n + 1) 2 = cyclicDB.walkTableBTree n 3 := rfl

/-- Helper: one unfolding of the walk on page 3 of the cyclic image
steps back to page 2 with one unit of fuel spent. -/
lemma cyclic_step_three (n : Nat) :
    cyclicDB.walkTableBTree (n + 1) 3 = cyclicDB.walkTableBTree n 2 := rfl

/-- Helper: on the cyclic image the walk of page 2 or page 3 exhausts
any finite recursion depth. -/
lemma cyclic_walk_none (fuel : Nat) :
    cyclicDB.walkTableBTree fuel 2 = none ∧
    cyclicDB.walkTableBTree fuel 3 = none := by
  induction fuel with
  | zero => exact ⟨rfl, rfl⟩
  | succ n ih => exact ⟨(cyclic_step_two n).trans ih.2,
                        (cyclic_step_three n).trans ih.1⟩

/-- C4 counterexample: `walkTableBTree` has no recursion-depth cap.
`cyclicData` is accepted by `newSQLiteDB` (valid magic, page size 32)
and its pages 2 and 3 are interior pages referencing each other; the
walk of page 2 fails to complete at every finite recursion depth — in
particular it is not abandoned at depth 64 — so the claimed
termination-via-depth-cap is false on the code. -/
theorem walkTableBTree_cycle_no_termination :
    newSQLiteDB cyclicData = some cyclicDB ∧
    ∀ fuel, cyclicDB.walkTableBTree fuel 2 = none :=
  ⟨rfl, fun fuel => (cyclic_walk_none fuel).1⟩

/-- C4 theorem (amended): `walkTableBTree` does not bound its recursion
depth, and on a corrupted file image whose interior pages form a cycle
the recursion never terminates: at every finite recursion depth the walk
of either page of the cycle runs out of depth rather than completing. -/
theorem walkTableBTree_no_depth_cap :
    ∀ fuel, cyclicDB.walkTableBTree fuel 2 = none ∧
            cyclicDB.walkTableBTree fuel 3 = none :=
  cyclic_walk_none

/-- C5 theorem: any inline payload slice returned by `leafCellPayload`
has length at most the declared payload size (the first varint of the
cell) and at most `page_size - 35`, and is a contiguous slice of the
given page, so no byte outside the page is ever read. -/
theorem leafCellPayload_inline_bound (db : sqliteDB) (page : List Nat)
    (cellOff : Nat) (s : List Nat)
    (h : db.leafCellPayload page cellOff = some s) :
    (s.length : Int) ≤ (readVarint page cellOff).1 ∧
    (s.length : Int) ≤ (db.pageSize : Int) - 35 ∧
    s <:+: page := by
  simp only [sqliteDB.leafCellPayload, sqliteDB.maxInlinePayload] at h
  split at h
  · exact absurd h (by simp)
  · split at h
    · exact absurd h (by simp)
    · split_ifs at h with h1 h2 h3 h4
      all_goals injection h with h
      all_goals subst h
      all_goals refine ⟨?_, ?_, ((List.take_prefix _ _).isInfix).trans
        ((List.drop_suffix _ _).isInfix)⟩
      all_goals rw [List.length_take, List.length_drop]
      all_goals push_cast
      all_goals omega

/-- C5 witness: a cell with declared payload size 2 inside a 4-byte page
of a database with page size 64 yields the 2-byte slice, within both
bounds and inside the page. -/
theorem leafCellPayload_inline_bound_witness :
    (((([77, 88] : List Nat).length : Nat) : Int) ≤
        (readVarint [2, 1, 77, 88] 0).1) ∧
    (((([77, 88] : List Nat).length : Nat) : Int) ≤
        (((64 : Nat) : Int) - 35)) ∧
    ([77, 88] : List Nat) <:+: [2, 1, 77, 88] :=
  leafCellPayload_inline_bound ⟨[], 64⟩ [2, 1, 77, 88] 0 [77, 88] rfl

/-- Helper: folding the schema callback from any starting root yields
column 3 of the last matching row (the first match of the reversed row
list), or the starting root when no row matches. -/
lemma foldl_schemaStep (name : List Nat) :
    ∀ (rows : List (List sqliteVal)) (r : Int),
      rows.foldl (schemaStep name) r =
        ((rows.reverse.find? (schemaMatch name)).map
          (fun cols => (cols.getD 3 zeroVal).intV)).getD r := by
  intro rows
  induction rows with
  | nil => intro r; rfl
  | cons c t ih =>
    intro r
    rw [List.foldl_cons, ih (schemaStep name r c)]
    rw [List.reverse_cons, List.find?_append]
    cases h : t.reverse.find? (schemaMatch name) with
    | some x => simp [h, Option.or]
    | none =>
      cases hc : schemaMatch name c <;>
        simp [h, hc, Option.or, List.find?_cons, schemaStep]

/-- C6 theorem: whenever the walk of page 1 completes with row list
`rows`, `findTableRootPage` returns column 3 of the last row satisfying
the schema predicate (column 0 equal to the bytes of the literal string
for a table entry, column 1 equal to the requested name, at least 4
columns, integer column 3), and 0 when no row matches. -/
theorem findTableRootPage_last_match (db : sqliteDB) (fuel : Nat)
    (name : List Nat) (rows : List (List sqliteVal))
    (h : db.walkTableBTree fuel 1 = some (Except.ok rows)) :
    db.findTableRootPage fuel name =
      some (Except.ok (((rows.reverse.find? (schemaMatch name)).map
        (fun cols => (cols.getD 3 zeroVal).intV)).getD 0)) := by
  unfold sqliteDB.findTableRootPage
  rw [h]
  exact congrArg some (congrArg Except.ok (foldl_schemaStep name rows 0))

/-- C6 witness: on the synthetic one-page schema image, whose single row
is the moz_cookies schema row with root page 2, the resolver returns 2;
the no-match case is exercised by the C7 witness, which resolves root 0
on a schema with no matching row. -/
theorem findTableRootPage_last_match_witness :
    schemaDB.findTableRootPage 1 mozCookiesBytes = some (Except.ok 2) :=
  findTableRootPage_last_match schemaDB 1 mozCookiesBytes
    [[⟨tableBytes, 0, false, false⟩, ⟨mozCookiesBytes, 0, false, false⟩,
      ⟨mozCookiesBytes, 0, false, false⟩, ⟨[], 2, true, false⟩,
      ⟨[], 0, false, true⟩]] rfl

/-- Helper: a row that misses any of the extractor's filters (fewer than
6 columns, host not containing the domain bytes, empty name, empty
value) leaves the cookie map unchanged. -/
lemma cookieStep_skip (m : List (List Nat × List Nat)) (cols : List sqliteVal)
    (h : cols.length < 6 ∨ ¬ claudeBytes <:+: (cols.getD 5 zeroVal).text ∨
      (cols.getD 3 zeroVal).text = [] ∨ (cols.getD 4 zeroVal).text = []) :
    cookieStep m cols = m := by
  simp only [cookieStep]
  split
  · rfl
  · rename_i h6
    split
    · rename_i hinf
      split
      · rename_i hnv
        exfalso
        rcases h with h | h | h | h
        · exact h6 h
        · exact h hinf
        · exact hnv.1 h
        · exact hnv.2 h
      · rfl
    · rfl

/-- Helper: a walk whose rows all miss the extractor's filters leaves
the cookie map unchanged. -/
lemma foldl_cookieStep_id :
    ∀ (rows : List (List sqliteVal)) (m : List (List Nat × List Nat)),
      (∀ cols ∈ rows, cols.length < 6 ∨
        ¬ claudeBytes <:+: (cols.getD 5 zeroVal).text ∨
        (cols.getD 3 zeroVal).text = [] ∨ (cols.getD 4 zeroVal).text = []) →
      rows.foldl cookieStep m = m := by
  intro rows
  induction rows with
  | nil => intro m _; rfl
  | cons c t ih =>
    intro m hall
    rw [List.foldl_cons, cookieStep_skip m c (hall c (by simp))]
    exact ih m (fun cols hc => hall cols (by simp [hc]))

/-- Helper: filtering with a predicate implied by the search predicate
does not change the result of `find?`. -/
lemma find?_filter_imp (p q : (List Nat × List Nat) → Bool)
    (hpq : ∀ x, p x = true → q x = true) :
    ∀ l : List (List Nat × List Nat), (l.filter q).find? p = l.find? p := by
  intro l
  induction l with
  | nil => rfl
  | cons x t ih =>
    by_cases hq : q x
    · rw [List.filter_cons_of_pos hq]
      cases hp : p x <;> simp [List.find?_cons, hp, ih]
    · have hp : p x = false := by
        cases hp : p x
        · rfl
        · exact absurd (hpq x hp) (by simpa using hq)
      rw [List.filter_cons_of_neg hq]
      simp [List.find?_cons, hp, ih]

/-- Helper: looking up the just-inserted key yields the new value (last
write wins). -/
lemma mapLookup_insert_self (m : List (List Nat × List Nat))
    (k v : List Nat) : mapLookup (mapInsert m k v) k = some v := by
  unfold mapLookup mapInsert
  rw [List.find?_append]
  have h1 : (m.filter (fun p => !(p.1 == k))).find? (fun p => p.1 == k)
      = none := by
    rw [List.find?_eq_none]
    intro x hx
    have hx2 := (List.mem_filter.mp hx).2
    simp at hx2 ⊢
    exact hx2
  rw [h1]
  simp [Option.or, List.find?_cons]

/-- Helper: inserting a binding does not disturb other keys. -/
lemma mapLookup_insert_other (m : List (List Nat × List Nat))
    (k v k' : List Nat) (h : k' ≠ k) :
    mapLookup (mapInsert m k v) k' = mapLookup m k' := by
  unfold mapLookup mapInsert
  rw [List.find?_append]
  rw [find?_filter_imp (fun p => p.1 == k') (fun p => !(p.1 == k))
    (fun x hx => by
      simp at hx ⊢
      rw [hx]
      exact h) m]
  cases hf : m.find? (fun p => p.1 == k') with
  | some x => simp [Option.or]
  | none =>
    have hk : ((k, v).1 == k') = false := by
      simp
      exact Ne.symm h
    simp [Option.or, List.find?_cons, hk]

/-- C7 theorem: the extractor errors when the cookie table resolves to
root page 0; succeeds with an empty map when the table resolves and the
walk completes but no row passes the filters; a row can change the map
only if it has at least 6 columns, its column-5 host contains the domain
bytes, and both column-3 name and column-4 value are non-empty; and map
insertion is last-write-wins, leaving other keys unchanged. -/
theorem parseCookiesFromSQLite_spec :
    (∀ (fuel : Nat) (data : List Nat) (db : sqliteDB),
      newSQLiteDB data = some db →
      db.findTableRootPage fuel mozCookiesBytes = some (Except.ok 0) →
      parseCookiesFromSQLite fuel data = some CookieResult.failed) ∧
    (∀ (fuel : Nat) (data : List Nat) (db : sqliteDB) (root : Int)
        (rows : List (List sqliteVal)),
      newSQLiteDB data = some db →
      db.findTableRootPage fuel mozCookiesBytes = some (Except.ok root) →
      root ≠ 0 →
      db.walkTableBTree fuel root = some (Except.ok rows) →
      (∀ cols ∈ rows, cols.length < 6 ∨
        ¬ claudeBytes <:+: (cols.getD 5 zeroVal).text ∨
        (cols.getD 3 zeroVal).text = [] ∨ (cols.getD 4 zeroVal).text = []) →
      parseCookiesFromSQLite fuel data = some (CookieResult.ok [])) ∧
    (∀ (m : List (List Nat × List Nat)) (cols : List sqliteVal),
      (cols.length < 6 ∨ ¬ claudeBytes <:+: (cols.getD 5 zeroVal).text ∨
        (cols.getD 3 zeroVal).text = [] ∨ (cols.getD 4 zeroVal).text = []) →
      cookieStep m cols = m) ∧
    (∀ (m : List (List Nat × List Nat)) (k v : List Nat),
      mapLookup (mapInsert m k v) k = some v) ∧
    (∀ (m : List (List Nat × List Nat)) (k v k' : List Nat), k' ≠ k →
      mapLookup (mapInsert m k v) k' = mapLookup m k') := by
  refine ⟨?_, ?_, ?_, ?_, ?_⟩
  · intro fuel data db h1 h2
    simp [parseCookiesFromSQLite, h1, h2]
  · intro fuel data db root rows h1 h2 h3 h4 h5
    simp only [parseCookiesFromSQLite, h1, h2, if_neg h3, h4]
    rw [foldl_cookieStep_id rows [] h5]
  · exact fun m cols h => cookieStep_skip m cols h
  · exact fun m k v => mapLookup_insert_self m k v
  · exact fun m k v k' h => mapLookup_insert_other m k v k' h

/-- C7 witness: on the synthetic image whose schema page has no cells,
the cookie table resolves to root 0 and the extractor errors. -/
theorem parseCookiesFromSQLite_spec_witness :
    parseCookiesFromSQLite 1 emptySchemaData = some CookieResult.failed :=
  parseCookiesFromSQLite_spec.1 1 emptySchemaData emptySchemaDB rfl rfl

/-- Helper: when byte `i + n` is the first byte from index `i` on with a
clear continuation bit (and it is among the first 8 varint bytes and in
bounds), the varint loop consumes through it and accumulates 7 low bits
per byte. -/
lemma rvLoop_stop (data : List Nat) (pos : Nat) :
    ∀ (n i v : Nat), i + n < 8 → pos + i + n < data.length →
      (∀ j, j < n → data.getD (pos + i + j) 0 &&& 128 ≠ 0) →
      data.getD (pos + i + n) 0 &&& 128 = 0 →
      rvLoop data pos (9 - i) i v = (accumBytes data pos v i (n + 1), i + n + 1) := by
  intro n
  induction n with
  | zero =>
    intro i v hi hlen _ hstop
    have hk : 9 - i = (8 - i) + 1 := by omega
    rw [hk]
    simp only [rvLoop]
    rw [if_pos (by omega : pos + i < data.length)]
    rw [if_neg (by omega : ¬ i = 8)]
    rw [if_pos (by simpa using hstop)]
    simp [accumBytes]
  | succ n ih =>
    intro i v hi hlen hcont hstop
    have hk : 9 - i = (9 - (i + 1)) + 1 := by omega
    rw [hk]
    simp only [rvLoop]
    rw [if_pos (by omega : pos + i < data.length)]
    rw [if_neg (by omega : ¬ i = 8)]
    rw [if_neg (by simpa using hcont 0 (by omega))]
    have ih2 := ih (i + 1) ((v <<< 7) ||| (data.getD (pos + i) 0 &&& 127))
      (by omega)
      (by rw [show pos + (i + 1) + n = pos + i + (n + 1) from by omega]; exact hlen)
      (fun j hj => by
        rw [show pos + (i + 1) + j = pos + i + (j + 1) from by omega]
        exact hcont (j + 1) (by omega))
      (by rw [show pos + (i + 1) + n = pos + i + (n + 1) from by omega]; exact hstop)
    rw [ih2]
    have hacc : accumBytes data pos ((v <<< 7) ||| (data.getD (pos + i) 0 &&& 127))
        (i + 1) (n + 1) = accumBytes data pos v i (n + 2) := rfl
    rw [hacc]
    have : i + 1 + n + 1 = i + (n + 1) + 1 := by omega
    rw [this]

/-- Helper: when the first 8 varint bytes (from index `i` on) all have
the continuation bit set and a 9th byte exists, the loop returns the
accumulator shifted by a full 8 bits or-ed with the 9th byte, consuming
exactly 9 bytes. -/
lemma rvLoop_full (data : List Nat) (pos : Nat) :
    ∀ (n i v : Nat), i + n = 8 → pos + 8 < data.length →
      (∀ j, j < n → data.getD (pos + i + j) 0 &&& 128 ≠ 0) →
      rvLoop data pos (9 - i) i v =
        ((accumBytes data pos v i n <<< 8) ||| data.getD (pos + 8) 0, 9) := by
  intro n
  induction n with
  | zero =>
    intro i v hi hlen _
    have h8 : i = 8 := by omega
    subst h8
    have hk : (9 : Nat) - 8 = 0 + 1 := rfl
    rw [hk]
    simp only [rvLoop]
    simp [hlen, accumBytes]
  | succ n ih =>
    intro i v hi hlen hcont
    have hk : 9 - i = (9 - (i + 1)) + 1 := by omega
    rw [hk]
    simp only [rvLoop]
    rw [if_pos (by omega : pos + i < data.length)]
    rw [if_neg (by omega : ¬ i = 8)]
    rw [if_neg (by simpa using hcont 0 (by omega))]
    have ih2 := ih (i + 1) ((v <<< 7) ||| (data.getD (pos + i) 0 &&& 127))
      (by omega) hlen
      (fun j hj => by
        rw [show pos + (i + 1) + j = pos + i + (j + 1) from by omega]
        exact hcont (j + 1) (by omega))
    rw [ih2]
    rfl

/-- Helper: when fewer than 9 bytes are available from `pos` and every
available byte has the continuation bit set, the loop signals failure
with 0 bytes consumed. -/
lemma rvLoop_exhaust (data : List Nat) (pos : Nat) :
    ∀ (n i v : Nat), i + n = 9 → data.length ≤ pos + 8 →
      (∀ j, pos + j < data.length → data.getD (pos + j) 0 &&& 128 ≠ 0) →
      rvLoop data pos n i v = (0, 0) := by
  intro n
  induction n with
  | zero => intro i v _ _ _; rfl
  | succ n ih =>
    intro i v hi hlen hcont
    simp only [rvLoop]
    by_cases hp : pos + i < data.length
    · rw [if_pos hp]
      rw [if_neg (by omega : ¬ i = 8)]
      rw [if_neg (by simpa using hcont i hp)]
      exact ih (i + 1) _ (by omega) hlen hcont
    · rw [if_neg hp]

/-- C2 theorem: `readVarint` accumulates 7 low bits per byte and stops
at (and consumes) the first of the leading 8 bytes with a clear
continuation bit; when 8 continuation bytes are consumed without
termination, the 9th byte contributes all 8 of its bits verbatim and
exactly 9 bytes are consumed; and when the buffer runs out before
termination it returns 0 bytes consumed to signal failure. -/
theorem readVarint_spec :
    (∀ (data : List Nat) (pos k : Nat), k < 8 → pos + k < data.length →
      (∀ j, j < k → data.getD (pos + j) 0 &&& 128 ≠ 0) →
      data.getD (pos + k) 0 &&& 128 = 0 →
      readVarint data pos =
        (int64OfNat (accumBytes data pos 0 0 (k + 1)), k + 1)) ∧
    (∀ (data : List Nat) (pos : Nat), pos + 8 < data.length →
      (∀ j, j < 8 → data.getD (pos + j) 0 &&& 128 ≠ 0) →
      readVarint data pos =
        (int64OfNat ((accumBytes data pos 0 0 8 <<< 8) |||
          data.getD (pos + 8) 0), 9)) ∧
    (∀ (data : List Nat) (pos : Nat), data.length ≤ pos + 8 →
      (∀ j, pos + j < data.length → data.getD (pos + j) 0 &&& 128 ≠ 0) →
      readVarint data pos = (0, 0)) := by
  refine ⟨?_, ?_, ?_⟩
  · intro data pos k hk hlen hcont hstop
    have h := rvLoop_stop data pos k 0 0 (by omega)
      (by simpa using hlen)
      (fun j hj => by simpa using hcont j hj)
      (by simpa using hstop)
    simp only [Nat.sub_zero, Nat.zero_add] at h
    simp only [readVarint, h]
  · intro data pos hlen hcont
    have h := rvLoop_full data pos 8 0 0 (by omega) hlen
      (fun j hj => by simpa using hcont j hj)
    simp only [Nat.sub_zero] at h
    simp only [readVarint, h]
  · intro data pos hlen hcont
    have h := rvLoop_exhaust data pos 9 0 0 (by omega) hlen hcont
    simp only [readVarint, h]
    simp [int64OfNat]

/-- C2 witness: the two-byte buffer with bytes 129 and 1 has its
continuation bit set on the first byte and clear on the second, so the
varint decodes the 7 low bits of each and consumes 2 bytes. -/
theorem readVarint_spec_witness :
    readVarint [129, 1] 0 = (int64OfNat (accumBytes [129, 1] 0 0 0 2), 2) :=
  readVarint_spec.1 [129, 1] 0 1 (by decide) (by decide)
    (fun j hj => by
      have hj0 : j = 0 := by omega
      subst hj0
      decide)
    (by decide)

/-- Helper: the interior-page fold propagates a fuel-exhausted
accumulator. -/
lemma interior_fold_none
    (w : Int → Option (Except Unit (List (List sqliteVal)))) :
    ∀ cs : List Nat, cs.foldl (interiorStep w) none = none := by
  intro cs
  induction cs with
  | nil => rfl
  | cons c t ih =>
    rw [List.foldl_cons]
    exact ih

/-- Helper: the interior-page fold propagates a panicked accumulator. -/
lemma interior_fold_err
    (w : Int → Option (Except Unit (List (List sqliteVal)))) :
    ∀ (cs : List Nat) (e : Unit),
      cs.foldl (interiorStep w) (some (Except.error e)) =
        some (Except.error e) := by
  intro cs
  induction cs with
  | nil => intro e; rfl
  | cons c t ih =>
    intro e
    rw [List.foldl_cons]
    exact ih e

/-- Helper: `walkSeq` on an empty list of pages. -/
lemma walkSeq_nil (db : sqliteDB) (fuel : Nat) :
    walkSeq db fuel [] = some (Except.ok []) := rfl

/-- Helper: one step of `walkSeq`. -/
lemma walkSeq_cons (db : sqliteDB) (fuel : Nat) (c : Int) (cs : List Int) :
    walkSeq db fuel (c :: cs) =
      match db.walkTableBTree fuel c with
      | none => none
      | some (Except.error e) => some (Except.error e)
      | some (Except.ok r) =>
        match walkSeq db fuel cs with
        | none => none
        | some (Except.error e) => some (Except.error e)
        | some (Except.ok rs) => some (Except.ok (r ++ rs)) := rfl

/-- Helper: the interior-page fold started from an accumulated row list
`a` walks exactly the positive child page numbers in list order,
appending their rows to `a` and propagating fuel exhaustion and
panics. -/
lemma interior_fold_some (db : sqliteDB) (fuel : Nat) :
    ∀ (cs : List Nat) (a : List (List sqliteVal)),
      cs.foldl (interiorStep (db.walkTableBTree fuel)) (some (Except.ok a)) =
      match walkSeq db fuel
          ((cs.filter (fun c => decide (0 < c))).map (fun c : Nat => (c : Int))) with
      | none => none
      | some (Except.error e) => some (Except.error e)
      | some (Except.ok rs) => some (Except.ok (a ++ rs)) := by
  intro cs
  induction cs with
  | nil => intro a; simp [walkSeq]
  | cons c t ih =>
    intro a
    rw [List.foldl_cons]
    by_cases hc : 0 < c
    · rw [List.filter_cons_of_pos (by simpa using hc)]
      cases hw : db.walkTableBTree fuel (c : Int) with
      | none =>
        have hstep : interiorStep (db.walkTableBTree fuel)
            (some (Except.ok a)) c = none := by
          simp [interiorStep, hc, hw]
        rw [hstep, interior_fold_none, List.map_cons, walkSeq_cons, hw]
      | some r =>
        cases r with
        | error e =>
          have hstep : interiorStep (db.walkTableBTree fuel)
              (some (Except.ok a)) c = some (Except.error e) := by
            simp [interiorStep, hc, hw]
          rw [hstep, interior_fold_err, List.map_cons, walkSeq_cons, hw]
        | ok r =>
          have hstep : interiorStep (db.walkTableBTree fuel)
              (some (Except.ok a)) c = some (Except.ok (a ++ r)) := by
            simp [interiorStep, hc, hw]
          rw [hstep, ih (a ++ r), List.map_cons, walkSeq_cons, hw]
          cases hws : walkSeq db fuel
              ((t.filter (fun c => decide (0 < c))).map (fun c : Nat => (c : Int))) with
          | none => rfl
          | some rr =>
            cases rr with
            | error e => rfl
            | ok rs => simp
    · rw [List.filter_cons_of_neg (by simpa using hc)]
      have hstep : interiorStep (db.walkTableBTree fuel)
          (some (Except.ok a)) c = some (Except.ok a) := by
        simp [interiorStep, hc]
      rw [hstep]
      exact ih a

/-- C3 counterexample: `panicData` is accepted by `newSQLiteDB` and its
page 1 is a table-interior (0x05) page, but the 108-byte page passes the
`hdrOff + 8` header check while being too short for the 4-byte
right-most child pointer at offset 108, so the Go walker panics on the
unguarded big-endian read: this interior page is never traversed at all
(right-most child first or otherwise), refuting the claim for every
interior page. -/
theorem walkTableBTree_short_interior_panics :
    newSQLiteDB panicData = some panicDB ∧
    panicData.getD 100 0 = 5 ∧
    panicDB.walkTableBTree 1 1 = some (Except.error ()) :=
  ⟨rfl, rfl, rfl⟩

/-- C3 theorem (amended): on a table-interior page (type 0x05) long
enough to hold the 4-byte right-most child pointer
(`hOff + 12 ≤ page.length`), one step of `walkTableBTree` walks the
right-most child (the 4-byte big-endian page number at header offset
+ 8) first, then the child page number of each cell in
cell-pointer-array order; child page numbers equal to 0 (either the
right-most one or a cell's) are dropped from the walked sequence and
never recursed into.  On an interior page shorter than `hOff + 12` the
unguarded right-most-child read panics instead of traversing. -/
theorem walkTableBTree_interior_order (db : sqliteDB) (fuel : Nat) (p : Int)
    (page : List Nat) (hOff : Nat)
    (hpage : db.page p = Except.ok (some page))
    (hh : hOff = if p = 1 then 100 else 0)
    (hlen : hOff + 8 ≤ page.length)
    (htype : page.getD hOff 0 = 5) :
    (page.length < hOff + 12 →
      db.walkTableBTree (fuel + 1) p = some (Except.error ())) ∧
    (hOff + 12 ≤ page.length →
      db.walkTableBTree (fuel + 1) p =
        walkSeq db fuel
          ((if 0 < readU32 page (hOff + 8) then
              [((readU32 page (hOff + 8) : Nat) : Int)]
            else []) ++
           ((cellChildPages page (hOff + 12) 0 (readU16 page (hOff + 3))).filter
              (fun c => decide (0 < c))).map (fun c : Nat => (c : Int)))) := by
  subst hh
  constructor
  · intro h12
    simp only [sqliteDB.walkTableBTree, hpage]
    rw [if_neg (by omega : ¬ page.length < (if p = 1 then 100 else 0) + 8)]
    rw [htype]
    rw [if_neg (by norm_num : ¬ (5 : Nat) = 13), if_pos rfl]
    rw [if_pos h12]
  · intro h12
    simp only [sqliteDB.walkTableBTree, hpage]
    rw [if_neg (by omega : ¬ page.length < (if p = 1 then 100 else 0) + 8)]
    rw [htype]
    rw [if_neg (by norm_num : ¬ (5 : Nat) = 13), if_pos rfl]
    rw [if_neg (by omega : ¬ page.length < (if p = 1 then 100 else 0) + 12)]
    by_cases hrc : 0 < readU32 page ((if p = 1 then 100 else 0) + 8)
    · rw [if_pos hrc, if_pos hrc]
      cases hw : db.walkTableBTree fuel
          ((readU32 page ((if p = 1 then 100 else 0) + 8) : Nat) : Int) with
      | none =>
        rw [interior_fold_none]
        rw [List.cons_append, walkSeq_cons, hw]
      | some r =>
        cases r with
        | error e =>
          rw [interior_fold_err _ _ e]
          rw [List.cons_append, walkSeq_cons, hw]
        | ok r0 =>
          rw [interior_fold_some db fuel _ r0, List.cons_append, walkSeq_cons,
            hw, List.nil_append]
    · rw [if_neg hrc, if_neg hrc]
      rw [interior_fold_some db fuel _ [], List.nil_append]
      cases walkSeq db fuel
          (((cellChildPages page ((if p = 1 then 100 else 0) + 12) 0
              (readU16 page ((if p = 1 then 100 else 0) + 3))).filter
            (fun c => decide (0 < c))).map (fun c : Nat => (c : Int))) with
      | none => rfl
      | some rr =>
        cases rr with
        | error e => rfl
        | ok rs => simp

/-- C3 witness: page 2 of the cyclic image is an interior page with
right-most child 3 and zero cells, so one walk step visits exactly the
page sequence consisting of page 3. -/
theorem walkTableBTree_interior_order_witness :
    cyclicDB.walkTableBTree 1 2 = walkSeq cyclicDB 0 [(3 : Int)] :=
  (walkTableBTree_interior_order cyclicDB 0 2 ((cyclicData.drop 32).take 32) 0
    rfl (by decide) (by decide) (by decide)).2 (by decide)
